import Mathlib

/-!
Verification of the interactive geometric-transformations application.

The development shallowly embeds the application's core logic:

* the pure geometry transforms (`translate`, `rotate`, `reflect` from
  `services/geometry.ts`, inlined at the end of `src/components/Controls.tsx`),
* the coordinate mapper and the drag state machine of the grid component
  (`src/unnamed/part_000`, the `MathGrid` component), and
* the application-level state container (`src/unnamed/part_001`, the `App`
  component): background clicks with the centroid-angle reordering, live drag
  updates, drag commits that rewrite the newest history entry, reset, and the
  two-phase apply-transformation orchestration.

JavaScript numbers are modelled as rationals (`ℚ`), with `Math.round` and
`Number(x.toFixed(2))` modelled as the exact tie-upward roundings they perform
on the magnitudes this program manipulates.  The float trigonometry inside
`rotate` is abstracted by carrying the evaluated cosine/sine pair of the angle;
no claim constrains those two values.  Presentation-only strings (the history
entry `description` and `math` derivation texts) and wall-clock identifiers
(`Date.now()`) are omitted from the state model: no claim refers to their
contents.
-/

/-- Grid-space point, field names from `types.ts`: coordinates are JS numbers,
modelled as rationals. -/
structure Point where
  x : ℚ
  y : ℚ
  deriving DecidableEq, Repr

/-- Raw client-space position carried by a mouse event or a `Touch` entry. -/
structure ClientPos where
  clientX : ℚ
  clientY : ℚ
  deriving DecidableEq, Repr

/-- JS `Math.round`: nearest integer, with ties rounded toward positive
infinity (`Math.round(x) = ⌊x + 1/2⌋`). -/
def jsRound (q : ℚ) : ℚ := ((⌊q + 1/2⌋ : ℤ) : ℚ)

/-- JS `Number(x.toFixed(2))`: rounding to two decimal places; on a tie
`toFixed` picks the larger value. -/
def round2 (q : ℚ) : ℚ := ((⌊q * 100 + 1/2⌋ : ℤ) : ℚ) / 100

/-- Pointwise `toFixed(2)` rounding, as in
`p => (parseFloat(p.x.toFixed(2)), parseFloat(p.y.toFixed(2)))`. -/
def round2Pt (p : Point) : Point := ⟨round2 p.x, round2 p.y⟩

/-- Reflection axis, the `'x' | 'y'` union type of the source. -/
inductive Axis
  | x
  | y
  deriving DecidableEq, Repr

namespace geometry

/-- `services/geometry.ts` `translate`: adds the vector to every point. -/
def translate (points : List Point) (tx ty : ℚ) : List Point :=
  points.map fun p => ⟨p.x + tx, p.y + ty⟩

/-- `services/geometry.ts` `rotate`: the source computes
`cosA = Math.cos(angleDegrees·π/180)` and `sinA = Math.sin(angleDegrees·π/180)`
once and then maps every point through the rotation matrix.  The matrix body is
embedded exactly, with the evaluated cosine/sine pair carried as parameters. -/
def rotate (points : List Point) (cosA sinA : ℚ) : List Point :=
  points.map fun p => ⟨p.x * cosA - p.y * sinA, p.x * sinA + p.y * cosA⟩

/-- `services/geometry.ts` `reflect`: across the x-axis negates y, across the
y-axis negates x. -/
def reflect (points : List Point) (axis : Axis) : List Point :=
  points.map fun p =>
    match axis with
    | .x => ⟨p.x, -p.y⟩
    | .y => ⟨-p.x, p.y⟩

end geometry

/-- A `TransformationType` together with its params object (the two always
travel together: `Controls.handleApply` builds the matching params for the
selected type).  `rotate` carries the evaluated cosine/sine of its angle. -/
inductive Transformation
  | rotate (cosA sinA : ℚ)
  | reflect (axis : Axis)
  | translateBy (tx ty : ℚ)
  deriving DecidableEq, Repr

/-- `App.tsx` `applyTransform`: dispatches on the transformation type. -/
def applyTransform (pointsToTransform : List Point) : Transformation → List Point
  | .rotate c s => geometry.rotate pointsToTransform c s
  | .reflect a => geometry.reflect pointsToTransform a
  | .translateBy tx ty => geometry.translate pointsToTransform tx ty

/-- Every transformation maps pointwise, so it preserves the length of the
point list. -/
theorem applyTransform_length (ps : List Point) (t : Transformation) :
    (applyTransform ps t).length = ps.length := by
  cases t <;>
    simp [applyTransform, geometry.rotate, geometry.reflect, geometry.translate]

/-- C9: translation additivity — translating by `(a, b)` and then by `(c, d)`
equals translating once by `(a + c, b + d)`, exactly, for every point list. -/
theorem claim9_translate_additive (P : List Point) (a b c d : ℚ) :
    geometry.translate (geometry.translate P a b) c d =
      geometry.translate P (a + c) (b + d) := by
  induction P with
  | nil => rfl
  | cons p ps ih =>
    simp only [geometry.translate, List.map_cons, List.map_map] at ih ⊢
    refine List.cons_eq_cons.mpr ⟨?_, ih⟩
    show Point.mk (p.x + a + c) (p.y + b + d) = Point.mk (p.x + (a + c)) (p.y + (b + d))
    rw [add_assoc, add_assoc]

/-- Cross product of two plane vectors. -/
def cross (u v : ℚ × ℚ) : ℚ := u.1 * v.2 - u.2 * v.1

/-- Zone of a vector in the sweep order of `Math.atan2 (y, x)`, whose value
lies in the half-open interval from -π exclusive to π inclusive: zone 0 is the
open lower half-plane (negative angles), zone 1 the non-negative x-axis
together with the origin (angle 0), zone 2 the open upper half-plane, zone 3
the negative x-axis (angle π).  Zones are listed in increasing angle order. -/
def angZone (u : ℚ × ℚ) : ℕ :=
  if u.2 < 0 then 0 else if 0 < u.2 then 2 else if 0 ≤ u.1 then 1 else 3

/-- Exact strict ordering of two vectors by their `Math.atan2 (y, x)` angle:
either the zones differ, or both vectors lie in the same open half-plane and
rotating from `u` to `v` is counter-clockwise by less than π (positive cross
product).  On the two axis zones the angle is constant, so vectors there never
compare strictly. -/
def angLt (u v : ℚ × ℚ) : Prop :=
  angZone u < angZone v ∨ (angZone u = angZone v ∧ 0 < cross u v)

instance (u v : ℚ × ℚ) : Decidable (angLt u v) :=
  inferInstanceAs (Decidable (_ ∨ _))

/-- Non-strict atan2 angle comparison, the order the stable sort realises. -/
def angLe (u v : ℚ × ℚ) : Prop := ¬angLt v u

instance (u v : ℚ × ℚ) : Decidable (angLe u v) :=
  inferInstanceAs (Decidable (¬_))

/-- Case analysis on the zone of a vector. -/
theorem angZone_cases (u : ℚ × ℚ) :
    (angZone u = 0 ∧ u.2 < 0) ∨ (angZone u = 1 ∧ u.2 = 0 ∧ 0 ≤ u.1) ∨
      (angZone u = 2 ∧ 0 < u.2) ∨ (angZone u = 3 ∧ u.2 = 0 ∧ u.1 < 0) := by
  unfold angZone
  split_ifs with h1 h2 h3
  · exact Or.inl ⟨rfl, h1⟩
  · exact Or.inr (Or.inr (Or.inl ⟨rfl, h2⟩))
  · exact Or.inr (Or.inl ⟨rfl, le_antisymm (not_lt.mp h2) (not_lt.mp h1), h3⟩)
  · exact Or.inr (Or.inr (Or.inr
      ⟨rfl, le_antisymm (not_lt.mp h2) (not_lt.mp h1), not_le.mp h3⟩))

/-- Within a common zone, positivity of the cross product agrees with strict
comparison of the key `-(x / y)` (the negated cotangent of the angle, which is
increasing in the angle on each open half-plane and constant on each axis
zone). -/
theorem cross_key_iff {u v : ℚ × ℚ} (h : angZone u = angZone v) :
    0 < cross u v ↔ -(u.1 / u.2) < -(v.1 / v.2) := by
  rcases angZone_cases u with ⟨hz, hu⟩ | ⟨hz, hu, hux⟩ | ⟨hz, hu⟩ | ⟨hz, hu, hux⟩ <;>
    rcases angZone_cases v with ⟨hz', hv⟩ | ⟨hz', hv, hvx⟩ | ⟨hz', hv⟩ | ⟨hz', hv, hvx⟩ <;>
      try omega
  all_goals rw [hz] at h; rw [hz'] at h
  · -- both in the open lower half-plane
    rw [neg_lt_neg_iff, ← neg_div_neg_eq v.1 v.2, ← neg_div_neg_eq u.1 u.2,
      div_lt_div_iff (by linarith : (0 : ℚ) < -v.2) (by linarith : (0 : ℚ) < -u.2)]
    unfold cross
    constructor <;> intro hlt <;> nlinarith
  · -- both on the zero-angle axis: cross vanishes and the keys coincide
    rw [hu, hv]
    simp [cross, hu, hv]
  · -- both in the open upper half-plane
    rw [neg_lt_neg_iff, div_lt_div_iff hv hu]
    unfold cross
    constructor <;> intro hlt <;> nlinarith
  · -- both on the angle-π axis
    rw [hu, hv]
    simp [cross, hu, hv]

/-- The strict atan2 order is the lexicographic order on zone and key. -/
theorem angLt_iff_key (u v : ℚ × ℚ) :
    angLt u v ↔
      angZone u < angZone v ∨
        (angZone u = angZone v ∧ -(u.1 / u.2) < -(v.1 / v.2)) := by
  unfold angLt
  exact or_congr Iff.rfl (and_congr_right fun h => cross_key_iff h)

/-- The non-strict atan2 order is the lexicographic non-strict order on zone
and key. -/
theorem angLe_iff_key (u v : ℚ × ℚ) :
    angLe u v ↔
      angZone u < angZone v ∨
        (angZone u = angZone v ∧ -(u.1 / u.2) ≤ -(v.1 / v.2)) := by
  unfold angLe
  rw [angLt_iff_key]
  constructor
  · intro hn
    rcases lt_trichotomy (angZone u) (angZone v) with h | h | h
    · exact Or.inl h
    · refine Or.inr ⟨h, ?_⟩
      by_contra hk
      exact hn (Or.inr ⟨h.symm, not_le.mp hk⟩)
    · exact absurd (Or.inl h) hn
  · rintro (h | ⟨hz, hk⟩) hlt
    · rcases hlt with h' | ⟨h', _⟩ <;> omega
    · rcases hlt with h' | ⟨h', hk'⟩
      · omega
      · exact absurd hk (not_le.mpr hk')

/-- Totality of the atan2 order. -/
theorem angLe_total (u v : ℚ × ℚ) : angLe u v ∨ angLe v u := by
  rw [angLe_iff_key, angLe_iff_key]
  rcases lt_trichotomy (angZone u) (angZone v) with h | h | h
  · exact Or.inl (Or.inl h)
  · rcases le_total (-(u.1 / u.2)) (-(v.1 / v.2)) with hk | hk
    · exact Or.inl (Or.inr ⟨h, hk⟩)
    · exact Or.inr (Or.inr ⟨h.symm, hk⟩)
  · exact Or.inr (Or.inl h)

/-- Transitivity of the atan2 order. -/
theorem angLe_trans {u v w : ℚ × ℚ} (h1 : angLe u v) (h2 : angLe v w) :
    angLe u w := by
  rw [angLe_iff_key] at h1 h2 ⊢
  rcases h1 with h1 | ⟨hz1, hk1⟩ <;> rcases h2 with h2 | ⟨hz2, hk2⟩
  · exact Or.inl (h1.trans h2)
  · exact Or.inl (by omega)
  · exact Or.inl (by omega)
  · exact Or.inr ⟨hz1.trans hz2, hk1.trans hk2⟩

/-- Insert `a` behind every element `b` of the accumulator satisfying
`le b a`.  With a total transitive comparison this places a new element after
all elements that compare less-or-equal, which is exactly where the stable
`Array.prototype.sort` leaves an element that ties. -/
def insertBy (le : α → α → Prop) [DecidableRel le] (a : α) : List α → List α
  | [] => [a]
  | b :: bs => if le b a then b :: insertBy le a bs else a :: b :: bs

/-- Stable ascending sort by repeated insertion.  ECMAScript's
`Array.prototype.sort` is required to be stable, and with the consistent
comparator `(a, b) => angleA - angleB` it produces the unique stable
ascending reordering, which this function computes. -/
def sortBy (le : α → α → Prop) [DecidableRel le] (l : List α) : List α :=
  l.foldl (fun acc a => insertBy le a acc) []

theorem insertBy_perm (le : α → α → Prop) [DecidableRel le] (a : α) :
    ∀ l : List α, (insertBy le a l).Perm (a :: l)
  | [] => List.Perm.refl _
  | b :: bs => by
    unfold insertBy
    split
    · exact ((insertBy_perm le a bs).cons b).trans (List.Perm.swap a b bs)
    · exact List.Perm.refl _

theorem foldl_insertBy_perm (le : α → α → Prop) [DecidableRel le] :
    ∀ (l acc : List α),
      (l.foldl (fun acc a => insertBy le a acc) acc).Perm (acc ++ l)
  | [], acc => by simp
  | x :: l, acc => by
    rw [List.foldl_cons]
    refine (foldl_insertBy_perm le l (insertBy le x acc)).trans ?_
    refine ((insertBy_perm le x acc).append_right l).trans ?_
    exact List.perm_middle.symm

/-- The insertion sort permutes its input. -/
theorem sortBy_perm (le : α → α → Prop) [DecidableRel le] (l : List α) :
    (sortBy le l).Perm l := by
  simpa using foldl_insertBy_perm le l []

theorem mem_insertBy (le : α → α → Prop) [DecidableRel le] (a x : α)
    (l : List α) (hx : x ∈ insertBy le a l) : x = a ∨ x ∈ l := by
  have := (insertBy_perm le a l).mem_iff.mp hx
  simpa using this

theorem pairwise_insertBy (le : α → α → Prop) [DecidableRel le]
    (htot : ∀ a b, le a b ∨ le b a)
    (htrans : ∀ a b c, le a b → le b c → le a c) (a : α) :
    ∀ l : List α, l.Pairwise le → (insertBy le a l).Pairwise le
  | [], _ => List.pairwise_singleton le a
  | b :: bs, h => by
    rw [List.pairwise_cons] at h
    unfold insertBy
    split
    · rename_i hba
      rw [List.pairwise_cons]
      refine ⟨fun x hx => ?_, pairwise_insertBy le htot htrans a bs h.2⟩
      rcases mem_insertBy le a x bs hx with rfl | hxbs
      · exact hba
      · exact h.1 x hxbs
    · rename_i hba
      have hab : le a b := (htot a b).resolve_right hba
      rw [List.pairwise_cons]
      refine ⟨fun x hx => ?_, List.pairwise_cons.mpr h⟩
      rcases List.mem_cons.mp hx with rfl | hxbs
      · exact hab
      · exact htrans a b x hab (h.1 x hxbs)

theorem pairwise_foldl_insertBy (le : α → α → Prop) [DecidableRel le]
    (htot : ∀ a b, le a b ∨ le b a)
    (htrans : ∀ a b c, le a b → le b c → le a c) :
    ∀ (l acc : List α), acc.Pairwise le →
      (l.foldl (fun acc a => insertBy le a acc) acc).Pairwise le
  | [], _, hacc => hacc
  | x :: l, acc, hacc => by
    rw [List.foldl_cons]
    exact pairwise_foldl_insertBy le htot htrans l _
      (pairwise_insertBy le htot htrans x acc hacc)

/-- The insertion sort output is sorted for any total transitive comparison. -/
theorem pairwise_sortBy (le : α → α → Prop) [DecidableRel le]
    (htot : ∀ a b, le a b ∨ le b a)
    (htrans : ∀ a b c, le a b → le b c → le a c) (l : List α) :
    (sortBy le l).Pairwise le :=
  pairwise_foldl_insertBy le htot htrans l [] (List.Pairwise.nil)

/-- Vector from `c` to `p`: the pair whose atan2 angle the comparator of
`handleGridClick` takes (`Math.atan2 (a.y - cy, a.x - cx)` reads the
y-component first, and the zone analysis above reads the second coordinate as
y). -/
def vecFrom (c p : Point) : ℚ × ℚ := (p.x - c.x, p.y - c.y)

/-- The comparator of `handleGridClick`: ascending atan2 angle about `c`. -/
def angLePt (c a b : Point) : Prop := angLe (vecFrom c a) (vecFrom c b)

instance (c a b : Point) : Decidable (angLePt c a b) :=
  inferInstanceAs (Decidable (angLe _ _))

instance (c : Point) : DecidableRel (angLePt c) := fun a b =>
  inferInstanceAs (Decidable (angLe _ _))

/-- Centroid as computed in `handleGridClick`: componentwise sum of the four
points, divided by the literal 4. -/
def centroid4 (ps : List Point) : Point :=
  ⟨(ps.map Point.x).sum / 4, (ps.map Point.y).sum / 4⟩

/-- The `'point' | 'shape'` union of `DragInfo.type`. -/
inductive DragType
  | point
  | shape
  deriving DecidableEq, Repr

/-- MathGrid `DragInfo` (the DragSession): kind, dragged index (-1 for shape
drags), anchor grid position, baseline point snapshot, raw touch origin, and
the confirmed-drag flag (`isDragging`, absent-or-false until classification). -/
structure DragInfo where
  type : DragType
  index : ℤ
  startPos : Point
  initialPoints : List Point
  touchStartPos : Option ClientPos
  isDragging : Bool
  deriving DecidableEq, Repr

/-- The animation prop `(from, to, key)`; `from`/`to` are renamed `fromPts` /
`toPts` because `from` is reserved, and the `Date.now()` key is modelled as an
arbitrary number (the completion never reads it). -/
structure Animation where
  fromPts : List Point
  toPts : List Point
  key : ℕ
  deriving DecidableEq, Repr

/-- `TransformationLogEntry` without its presentation strings (`description`,
`math`) and its `Date.now()` id, which no claim reads; `type` and `params` are
merged into `transf`. -/
structure LogEntry where
  transf : Transformation
  originalPoints : List Point
  transformedPoints : List Point
  deriving DecidableEq, Repr

/-- The completion scheduled by `handleApplyTransform`'s `setTimeout`,
carrying the values the closure captured at scheduling time. -/
structure PendingApply where
  transf : Transformation
  sourcePoints : List Point
  newPoints : List Point
  capturedTransformed : Option (List Point)
  deriving DecidableEq, Repr

/-- The `App` component state: `points` (base PointSet), `transformedPoints`
(preview PointSet), `history`, `highlightedPointIndex`, `isAnimating`, the
`animation` prop, plus the in-flight `setTimeout` completion. -/
structure AppState where
  points : List Point
  transformedPoints : Option (List Point)
  history : List LogEntry
  highlightedPointIndex : Option ℕ
  isAnimating : Bool
  animation : Option Animation
  pending : Option PendingApply
  deriving DecidableEq, Repr

/-- The `MathGrid` component state: the DragSession (`dragInfo` state and
`dragInfoRef` coincide for the logic modelled here), the
`latestDraggedPointsRef`, and whether the global move/up listeners are
currently subscribed. -/
structure GridState where
  dragInfo : Option DragInfo
  latestDraggedPoints : Option (List Point)
  listenersAttached : Bool
  deriving DecidableEq, Repr

/-- Combined application + grid component state. -/
structure SysState where
  app : AppState
  grid : GridState
  deriving DecidableEq, Repr

/-- The svg element's rendered bounding box (`getBoundingClientRect`). -/
structure Rect where
  left : ℚ
  top : ℚ
  width : ℚ
  height : ℚ
  deriving DecidableEq, Repr

/-- The fixed logical viewbox (`svg.viewBox.baseVal`). -/
structure ViewBox where
  x : ℚ
  y : ℚ
  width : ℚ
  height : ℚ
  deriving DecidableEq, Repr

/-- A raw pointer event: a mouse event carries `clientX`/`clientY`, a touch
event carries its active-touch list. -/
inductive PtrEvent
  | mouse (clientX clientY : ℚ)
  | touch (touches : List ClientPos)
  deriving DecidableEq, Repr

/-- The linear client-to-grid mapping inside `getCoordsFromEvent`: offset into
the bounding box, normalise to a 0..1 fraction, map into viewbox space with
the vertical fraction inverted. -/
def mapClient (rect : Rect) (vb : ViewBox) (clientX clientY : ℚ) : Point :=
  let svgX := clientX - rect.left
  let svgY := clientY - rect.top
  let rX := svgX / rect.width
  let rY := svgY / rect.height
  ⟨vb.x + rX * vb.width, vb.y + (1 - rY) * vb.height⟩

/-- MathGrid `getCoordsFromEvent`: touch events read `touches[0]` and yield
null when no touch is active; mouse events read `clientX`/`clientY`.  The
`svgRef` null-check is dropped: the component always renders the svg. -/
def getCoordsFromEvent (rect : Rect) (vb : ViewBox) : PtrEvent → Option Point
  | .mouse cx cy => some (mapClient rect vb cx cy)
  | .touch [] => none
  | .touch (t :: _) => some (mapClient rect vb t.clientX t.clientY)

/-- App `handleGridClick`: clears the highlight; a click on a full (4-point)
set starts a fresh single-point shape and discards preview and history;
otherwise the point is appended, and when it is the 4th point the list is
reordered by ascending atan2 angle about the centroid. -/
def handleGridClick (a : AppState) (point : Point) : AppState :=
  let a := { a with highlightedPointIndex := none }
  if 4 ≤ a.points.length then
    { a with transformedPoints := none, history := [], points := [point] }
  else
    let newPoints := a.points ++ [point]
    if newPoints.length = 4 then
      let c := centroid4 newPoints
      { a with points := sortBy (angLePt c) newPoints }
    else
      { a with points := newPoints }

/-- App `handlePointsDrag` (the live `onPointsDrag` callback): store the new
points; when history is nonempty, recompute the preview by re-applying the
newest entry's transformation, rounded to two decimals. -/
def handlePointsDrag (a : AppState) (newPoints : List Point) : AppState :=
  let a1 := { a with points := newPoints }
  match a.history with
  | [] => a1
  | lastLogEntry :: _ =>
    { a1 with
      transformedPoints :=
        some ((applyTransform newPoints lastLogEntry.transf).map round2Pt) }

/-- App `handleDragEnd` (the commit `onDragEnd` callback): when history is
nonempty, re-apply the newest entry's transformation to the final points,
refresh the preview, and rewrite that newest entry in place (source and result
points); no new entry is created. -/
def handleDragEndApp (a : AppState) (finalPoints : List Point) : AppState :=
  match a.history with
  | [] => a
  | lastLogEntry :: rest =>
    let newTransformedPoints := applyTransform finalPoints lastLogEntry.transf
    { a with
      transformedPoints := some (newTransformedPoints.map round2Pt),
      history := { lastLogEntry with
        originalPoints := finalPoints,
        transformedPoints := newTransformedPoints } :: rest }

/-- App `handleReset`: clears base points, preview, history and highlight (and
touches nothing else). -/
def handleReset (a : AppState) : AppState :=
  { a with
    points := [],
    transformedPoints := none,
    history := [],
    highlightedPointIndex := none }

/-- App `handleApplyTransform`, synchronous part: rejected while animating;
source points are the preview if one exists, else the base points, and must
number exactly 4; computes the target points, raises `isAnimating`, clears the
highlight, publishes the animation prop and schedules the completion. -/
def handleApplyStart (a : AppState) (t : Transformation) : AppState :=
  if a.isAnimating then a
  else
    let sourcePoints := a.transformedPoints.getD a.points
    if sourcePoints.length ≠ 4 then a
    else
      let newPoints := applyTransform sourcePoints t
      { a with
        isAnimating := true,
        highlightedPointIndex := none,
        animation := some ⟨sourcePoints, newPoints.map round2Pt, 0⟩,
        pending := some ⟨t, sourcePoints, newPoints, a.transformedPoints⟩ }

/-- App `handleApplyTransform`, the `setTimeout` completion that fires after
the fixed 750-unit duration: promotes the captured preview (if any) into the
base points, stores the rounded target as the new preview, prepends the log
entry capped at 2, clears the animation and lowers `isAnimating`. -/
def handleApplyComplete (a : AppState) : AppState :=
  match a.pending with
  | none => a
  | some pa =>
    let a1 := match pa.capturedTransformed with
      | some tp => { a with points := tp }
      | none => a
    let logEntry : LogEntry :=
      { transf := pa.transf,
        originalPoints := pa.sourcePoints,
        transformedPoints := pa.newPoints }
    { a1 with
      transformedPoints := some (pa.newPoints.map round2Pt),
      history := (logEntry :: a1.history).take 2,
      animation := none,
      isAnimating := false,
      pending := none }

/-- MathGrid `handleDragEnd`: releases the global listeners, emits the commit
callback only when the gesture was confirmed as a drag, and always discards
the session and the remembered points. -/
def handleDragEndGrid (s : SysState) : SysState :=
  let app' :=
    match s.grid.latestDraggedPoints, s.grid.dragInfo with
    | some lp, some d => if d.isDragging then handleDragEndApp s.app lp else s.app
    | _, _ => s.app
  ⟨app', ⟨none, none, false⟩⟩

/-- The point list computed on a confirmed drag move: a Point-kind session
moves and rounds only the indexed point (others are returned untouched), a
Shape-kind session moves and rounds every baseline point. -/
def movePoints (d : DragInfo) (dx dy : ℚ) : List Point :=
  match d.type with
  | .point => d.initialPoints.mapIdx fun i p =>
      if (i : ℤ) = d.index then ⟨jsRound (p.x + dx), jsRound (p.y + dy)⟩ else p
  | .shape => d.initialPoints.map fun p => ⟨jsRound (p.x + dx), jsRound (p.y + dy)⟩

/-- Tail of MathGrid `handleDragMove` after classification: map the event to
grid coordinates (bailing out when it has none), move the baseline by the
delta from the anchor, emit the live update and remember the result.  The
session `d` is stored back because the source mutates the object in place
before this point. -/
def emitMove (rect : Rect) (vb : ViewBox) (s : SysState) (d : DragInfo)
    (e : PtrEvent) : SysState :=
  match getCoordsFromEvent rect vb e with
  | none => { s with grid := { s.grid with dragInfo := some d } }
  | some currentPos =>
    let dx := currentPos.x - d.startPos.x
    let dy := currentPos.y - d.startPos.y
    let newPoints := movePoints d dx dy
    { app := handlePointsDrag s.app newPoints,
      grid :=
        { s.grid with
          dragInfo := some d,
          latestDraggedPoints := some newPoints } }

/-- MathGrid `handleDragMove`: no-op without a session.  A touch move on an
unconfirmed touch-started session is classified against the 5-pixel threshold
(per-axis absolute displacement from the touch origin): below it the handler
returns with nothing emitted; above it, a dominant vertical displacement
aborts the gesture via `handleDragEnd`, otherwise the session is confirmed.
Any mouse move confirms the session.  A confirmed move emits via `emitMove`.
A touch move with zero active touches cannot be delivered by the DOM (the
classifier dereferences `touches[0]`); it is modelled as a no-op. -/
def handleDragMove (rect : Rect) (vb : ViewBox) (s : SysState) (e : PtrEvent) :
    SysState :=
  match s.grid.dragInfo with
  | none => s
  | some d =>
    match e with
    | .touch [] => s
    | .touch (t :: _) =>
      match d.isDragging, d.touchStartPos with
      | false, some o =>
        let dx := |t.clientX - o.clientX|
        let dy := |t.clientY - o.clientY|
        if 5 < dx ∨ 5 < dy then
          if dx < dy then handleDragEndGrid s
          else emitMove rect vb s { d with isDragging := true } e
        else s
      | _, _ => emitMove rect vb s d e
    | .mouse _ _ =>
      let d' := if d.isDragging then d else { d with isDragging := true }
      emitMove rect vb s d' e

/-- The touch origin recorded by `handleDragStart` when the native event is a
touch event. -/
def touchOriginOf : PtrEvent → Option ClientPos
  | .mouse _ _ => none
  | .touch [] => none
  | .touch (t :: _) => some ⟨t.clientX, t.clientY⟩

/-- MathGrid `handleDragStart`: rejected while an animation is in flight;
otherwise captures the anchor grid position and the baseline point snapshot,
records the raw touch origin for touch gestures, seeds the remembered points
and installs the global move/up listeners.  A fresh session always starts
unconfirmed. -/
def handleDragStart (rect : Rect) (vb : ViewBox) (s : SysState) (e : PtrEvent)
    (ty : DragType) (index : ℤ) : SysState :=
  if s.app.animation.isSome then s
  else
    match getCoordsFromEvent rect vb e with
    | none => s
    | some startPos =>
      let newDragInfo : DragInfo :=
        ⟨ty, index, startPos, s.app.points, touchOriginOf e, false⟩
      { s with
        grid :=
          { dragInfo := some newDragInfo,
            latestDraggedPoints := some s.app.points,
            listenersAttached := true } }

/-- MathGrid `handleGridBackgroundClick`: ignored while a DragSession or an
animation is active; otherwise maps the event to grid coordinates and forwards
the point, rounded to integer grid units, to App `handleGridClick`. -/
def handleGridBackgroundClick (rect : Rect) (vb : ViewBox) (s : SysState)
    (e : PtrEvent) : SysState :=
  if s.grid.dragInfo.isSome ∨ s.app.animation.isSome then s
  else
    match getCoordsFromEvent rect vb e with
    | none => s
    | some coords =>
      { s with app := handleGridClick s.app ⟨jsRound coords.x, jsRound coords.y⟩ }

/-- The discrete UI events driving the combined system. -/
inductive Op
  | gridClick (e : PtrEvent)
  | dragStart (e : PtrEvent) (ty : DragType) (index : ℤ)
  | dragMove (e : PtrEvent)
  | dragEnd
  | reset
  | applyStart (t : Transformation)
  | applyComplete
  deriving DecidableEq, Repr

/-- One step of the combined App + MathGrid state machine. -/
def step (rect : Rect) (vb : ViewBox) (s : SysState) : Op → SysState
  | .gridClick e => handleGridBackgroundClick rect vb s e
  | .dragStart e ty index => handleDragStart rect vb s e ty index
  | .dragMove e => handleDragMove rect vb s e
  | .dragEnd => handleDragEndGrid s
  | .reset => { s with app := handleReset s.app }
  | .applyStart t => { s with app := handleApplyStart s.app t }
  | .applyComplete => { s with app := handleApplyComplete s.app }

/-- The initial state: no points, no preview, no history, nothing in flight. -/
def initState : SysState :=
  ⟨⟨[], none, [], none, false, none, none⟩, ⟨none, none, false⟩⟩

/-- States reachable from the initial state through UI events. -/
inductive Reachable (rect : Rect) (vb : ViewBox) : SysState → Prop
  | init : Reachable rect vb initState
  | next {s : SysState} (h : Reachable rect vb s) (op : Op) :
      Reachable rect vb (step rect vb s op)

/-- Bounding box used in the concrete scenarios: the svg rendered at its
logical size with its top-left corner at the client origin, so a client
position `(cx, cy)` maps to the grid point `(cx - 10, 10 - cy)`. -/
def rect0 : Rect := ⟨0, 0, 20, 20⟩

/-- The default viewbox of MathGrid: `gridSize = 20`, origin centred,
`viewBox = "-10 -10 20 20"`. -/
def vb0 : ViewBox := ⟨-10, -10, 20, 20⟩

/-- Ready state holding the square of the reflect-then-drag scenario, with no
preview, no history and nothing in flight. -/
def dragScenarioStart : SysState :=
  ⟨⟨[⟨1, 1⟩, ⟨3, 1⟩, ⟨3, 3⟩, ⟨1, 3⟩], none, [], none, false, none, none⟩,
   ⟨none, none, false⟩⟩

/-- Reflect-then-drag scenario: apply Reflect across the y-axis and let the
animation complete, then drag the shape by `(+2, 0)` — pointer down on the
shape at client `(10, 10)` (grid `(0, 0)`), one move to client `(12, 10)`
(grid `(2, 0)`), pointer up. -/
def dragScenarioEnd : SysState :=
  step rect0 vb0 (step rect0 vb0 (step rect0 vb0 (step rect0 vb0 (step rect0 vb0
    dragScenarioStart (.applyStart (.reflect .y))) .applyComplete)
      (.dragStart (.mouse 10 10) .shape (-1))) (.dragMove (.mouse 12 10))) .dragEnd

/-- The pre-drag base square of the reflect-then-drag scenario. -/
def P0 : List Point := [⟨1, 1⟩, ⟨3, 1⟩, ⟨3, 3⟩, ⟨1, 3⟩]

/-- Preview produced by reflecting `P0` across the y-axis. -/
def Q0 : List Point := [⟨-1, 1⟩, ⟨-3, 1⟩, ⟨-3, 3⟩, ⟨-1, 3⟩]

/-- The base square `P0` after the `(+2, 0)` shape drag. -/
def P1 : List Point := [⟨3, 1⟩, ⟨5, 1⟩, ⟨5, 3⟩, ⟨3, 3⟩]

/-- Reflection of the dragged square `P1` across the y-axis. -/
def Q1 : List Point := [⟨-3, 1⟩, ⟨-5, 1⟩, ⟨-5, 3⟩, ⟨-3, 3⟩]

/-- State right after the Reflect apply is scheduled. -/
def sA : SysState :=
  ⟨⟨P0, none, [], none, true, some ⟨P0, Q0, 0⟩, some ⟨.reflect .y, P0, Q0, none⟩⟩,
   ⟨none, none, false⟩⟩

/-- State after the Reflect animation completes. -/
def sB : SysState :=
  ⟨⟨P0, some Q0, [⟨.reflect .y, P0, Q0⟩], none, false, none, none⟩,
   ⟨none, none, false⟩⟩

/-- State after pointer-down on the shape at grid `(0, 0)`. -/
def sC : SysState :=
  ⟨⟨P0, some Q0, [⟨.reflect .y, P0, Q0⟩], none, false, none, none⟩,
   ⟨some ⟨.shape, -1, ⟨0, 0⟩, P0, none, false⟩, some P0, true⟩⟩

/-- State after the confirmed move to grid `(2, 0)`. -/
def sD : SysState :=
  ⟨⟨P1, some Q1, [⟨.reflect .y, P0, Q0⟩], none, false, none, none⟩,
   ⟨some ⟨.shape, -1, ⟨0, 0⟩, P0, none, true⟩, some P1, true⟩⟩

/-- Final state after pointer-up commits the drag. -/
def sE : SysState :=
  ⟨⟨P1, some Q1, [⟨.reflect .y, P1, Q1⟩], none, false, none, none⟩,
   ⟨none, none, false⟩⟩

theorem dragStage1 :
    step rect0 vb0 dragScenarioStart (.applyStart (.reflect .y)) = sA := by
  norm_num [step, handleApplyStart, applyTransform, geometry.reflect, round2Pt,
    round2, dragScenarioStart, sA, P0, Q0]

theorem dragStage2 : step rect0 vb0 sA .applyComplete = sB := by
  norm_num [step, handleApplyComplete, round2Pt, round2, sA, sB, P0, Q0]

theorem dragStage3 :
    step rect0 vb0 sB (.dragStart (.mouse 10 10) .shape (-1)) = sC := by
  norm_num [step, handleDragStart, getCoordsFromEvent, mapClient, touchOriginOf,
    rect0, vb0, sB, sC, P0, Q0]

theorem dragStage4 : step rect0 vb0 sC (.dragMove (.mouse 12 10)) = sD := by
  norm_num [step, handleDragMove, emitMove, getCoordsFromEvent, mapClient,
    movePoints, handlePointsDrag, applyTransform, geometry.reflect, jsRound,
    round2Pt, round2, rect0, vb0, sC, sD, P0, P1, Q0, Q1]

theorem dragStage5 : step rect0 vb0 sD .dragEnd = sE := by
  norm_num [step, handleDragEndGrid, handleDragEndApp, applyTransform,
    geometry.reflect, jsRound, round2Pt, round2, sD, sE, P0, P1, Q1]

theorem dragScenarioEnd_eq : dragScenarioEnd = sE := by
  unfold dragScenarioEnd
  rw [dragStage1, dragStage2, dragStage3, dragStage4, dragStage5]

/-- C1 counterexample: in the reflect-then-drag scenario the single history
entry's transformedPoints are the y-axis reflection of the dragged base points,
`[(-3,1),(-5,1),(-5,3),(-3,3)]`, and not the value `[(1,1),(-1,1),(-1,3),(1,3)]`
the claim requires (the previous preview shifted by the drag delta). -/
theorem claim1_counterexample :
    dragScenarioEnd.app.history.map (fun en => en.transformedPoints) = [Q1] ∧
    Q1 ≠ [⟨1, 1⟩, ⟨-1, 1⟩, ⟨-1, 3⟩, ⟨1, 3⟩] := by
  rw [dragScenarioEnd_eq]
  constructor
  · simp [sE]
  · intro h
    simp only [Q1, List.cons.injEq, Point.mk.injEq] at h
    norm_num at h

/-- C1 (amended): after applying Reflect across the y-axis to
`[(1,1),(3,1),(3,3),(1,3)]` (producing preview `[(-1,1),(-3,1),(-3,3),(-1,3)]`)
and completing a shape-drag of `(+2,0)`, the single history entry's
originalPoints are the pre-drag source points shifted by `(+2,0)` and its
transformedPoints are the y-axis reflection of those shifted points,
`[(-3,1),(-5,1),(-5,3),(-3,3)]`; no second history entry is created, and the
preview equals the same reflected value. -/
theorem claim1_drag_rewrites_entry :
    dragScenarioEnd.app.history = [⟨.reflect .y, P1, Q1⟩] ∧
    P1 = geometry.translate P0 2 0 ∧
    Q1 = geometry.reflect P1 .y ∧
    dragScenarioEnd.app.transformedPoints = some Q1 := by
  rw [dragScenarioEnd_eq]
  refine ⟨rfl, ?_, ?_, rfl⟩
  · norm_num [P0, P1, geometry.translate]
  · norm_num [P1, Q1, geometry.reflect]

/-- The sort does not change the number of points. -/
theorem sortBy_length (le : α → α → Prop) [DecidableRel le] (l : List α) :
    (sortBy le l).length = l.length :=
  (sortBy_perm le l).length_eq

/-- A drag move produces as many points as the baseline snapshot holds. -/
theorem movePoints_length (d : DragInfo) (dx dy : ℚ) :
    (movePoints d dx dy).length = d.initialPoints.length := by
  unfold movePoints
  cases d.type <;> simp

/-- Size invariant on the application state: at most 4 base points, at most 4
preview points, at most 2 history entries, and any scheduled completion holds
exactly 4 target points and at most 4 captured preview points. -/
def InvApp (a : AppState) : Prop :=
  a.points.length ≤ 4 ∧
  (∀ tp ∈ a.transformedPoints, tp.length ≤ 4) ∧
  a.history.length ≤ 2 ∧
  (∀ pa ∈ a.pending, pa.newPoints.length = 4 ∧
    ∀ tp ∈ pa.capturedTransformed, tp.length ≤ 4)

/-- Size invariant on the combined state: the application invariant plus
bounds on the drag baseline snapshot and the remembered drag points. -/
def SysInv (s : SysState) : Prop :=
  InvApp s.app ∧
  (∀ d ∈ s.grid.dragInfo, d.initialPoints.length ≤ 4) ∧
  (∀ lp ∈ s.grid.latestDraggedPoints, lp.length ≤ 4)

theorem invApp_handleGridClick (a : AppState) (p : Point) (h : InvApp a) :
    InvApp (handleGridClick a p) := by
  obtain ⟨h1, h2, h3, h4⟩ := h
  unfold handleGridClick
  dsimp only
  split
  · exact ⟨by simp, by simp, by simp, h4⟩
  · rename_i hlen
    split
    · rename_i h4len
      refine ⟨?_, h2, h3, h4⟩
      simpa [sortBy_length] using le_of_eq h4len
    · refine ⟨?_, h2, h3, h4⟩
      simp only [List.length_append, List.length_singleton]
      omega

theorem invApp_handlePointsDrag (a : AppState) (newPoints : List Point)
    (h : InvApp a) (hn : newPoints.length ≤ 4) :
    InvApp (handlePointsDrag a newPoints) := by
  obtain ⟨h1, h2, h3, h4⟩ := h
  unfold handlePointsDrag
  dsimp only
  split
  · exact ⟨hn, h2, h3, h4⟩
  · refine ⟨hn, ?_, h3, h4⟩
    intro tp htp
    simp only [Option.mem_def, Option.some_inj] at htp
    subst htp
    simpa [applyTransform_length] using hn

theorem invApp_handleDragEndApp (a : AppState) (finalPoints : List Point)
    (h : InvApp a) (hf : finalPoints.length ≤ 4) :
    InvApp (handleDragEndApp a finalPoints) := by
  obtain ⟨h1, h2, h3, h4⟩ := h
  unfold handleDragEndApp
  split
  · exact ⟨h1, h2, h3, h4⟩
  · rename_i lastLogEntry rest heq
    refine ⟨h1, ?_, ?_, h4⟩
    · intro tp htp
      simp only [Option.mem_def, Option.some_inj] at htp
      subst htp
      simpa [applyTransform_length] using hf
    · have : a.history.length = rest.length + 1 := by rw [heq]; rfl
      simp only [List.length_cons]
      omega

theorem inv_handleDragEndGrid (s : SysState) (h : SysInv s) :
    SysInv (handleDragEndGrid s) := by
  obtain ⟨hApp, hDrag, hLatest⟩ := h
  unfold handleDragEndGrid
  refine ⟨?_, by simp, by simp⟩
  dsimp only
  split
  · rename_i lp d heq1 heq2
    split
    · exact invApp_handleDragEndApp s.app lp hApp (hLatest lp heq1)
    · exact hApp
  · exact hApp

theorem inv_emitMove (rect : Rect) (vb : ViewBox) (s : SysState) (d : DragInfo)
    (e : PtrEvent) (h : SysInv s) (hd : d.initialPoints.length ≤ 4) :
    SysInv (emitMove rect vb s d e) := by
  obtain ⟨hApp, hDrag, hLatest⟩ := h
  unfold emitMove
  split
  · refine ⟨hApp, ?_, hLatest⟩
    intro d' hd'
    simp only [Option.mem_def, Option.some_inj] at hd'
    subst hd'
    exact hd
  · refine ⟨?_, ?_, ?_⟩
    · exact invApp_handlePointsDrag s.app _ hApp (by rw [movePoints_length]; exact hd)
    · intro d' hd'
      simp only [Option.mem_def, Option.some_inj] at hd'
      subst hd'
      exact hd
    · intro lp hlp
      simp only [Option.mem_def, Option.some_inj] at hlp
      subst hlp
      rw [movePoints_length]
      exact hd

theorem inv_handleDragMove (rect : Rect) (vb : ViewBox) (s : SysState)
    (e : PtrEvent) (h : SysInv s) : SysInv (handleDragMove rect vb s e) := by
  have hDrag := h.2.1
  unfold handleDragMove
  split
  · exact h
  · rename_i d heq
    have hd : d.initialPoints.length ≤ 4 := hDrag d heq
    split
    · exact h
    · split
      · dsimp only
        split
        · split
          · exact inv_handleDragEndGrid s h
          · exact inv_emitMove rect vb s _ _ h hd
        · exact h
      · exact inv_emitMove rect vb s d _ h hd
    · dsimp only
      split
      · exact inv_emitMove rect vb s _ _ h hd
      · exact inv_emitMove rect vb s _ _ h (by simpa using hd)

theorem inv_handleDragStart (rect : Rect) (vb : ViewBox) (s : SysState)
    (e : PtrEvent) (ty : DragType) (index : ℤ) (h : SysInv s) :
    SysInv (handleDragStart rect vb s e ty index) := by
  obtain ⟨hApp, hDrag, hLatest⟩ := h
  unfold handleDragStart
  split
  · exact ⟨hApp, hDrag, hLatest⟩
  · split
    · exact ⟨hApp, hDrag, hLatest⟩
    · refine ⟨hApp, ?_, ?_⟩
      · intro d hd
        simp only [Option.mem_def, Option.some_inj] at hd
        subst hd
        exact hApp.1
      · intro lp hlp
        simp only [Option.mem_def, Option.some_inj] at hlp
        subst hlp
        exact hApp.1

theorem inv_handleGridBackgroundClick (rect : Rect) (vb : ViewBox)
    (s : SysState) (e : PtrEvent) (h : SysInv s) :
    SysInv (handleGridBackgroundClick rect vb s e) := by
  obtain ⟨hApp, hDrag, hLatest⟩ := h
  unfold handleGridBackgroundClick
  split
  · exact ⟨hApp, hDrag, hLatest⟩
  · split
    · exact ⟨hApp, hDrag, hLatest⟩
    · exact ⟨invApp_handleGridClick s.app _ hApp, hDrag, hLatest⟩

theorem invApp_handleReset (a : AppState) (h : InvApp a) :
    InvApp (handleReset a) := by
  obtain ⟨h1, h2, h3, h4⟩ := h
  exact ⟨by simp [handleReset], by simp [handleReset], by simp [handleReset],
    by simpa [handleReset] using h4⟩

theorem invApp_handleApplyStart (a : AppState) (t : Transformation)
    (h : InvApp a) : InvApp (handleApplyStart a t) := by
  obtain ⟨h1, h2, h3, h4⟩ := h
  unfold handleApplyStart
  split
  · exact ⟨h1, h2, h3, h4⟩
  · dsimp only
    split
    · exact ⟨h1, h2, h3, h4⟩
    · rename_i hlen
      refine ⟨h1, h2, h3, ?_⟩
      intro pa hpa
      simp only [Option.mem_def, Option.some_inj] at hpa
      subst hpa
      constructor
      · rw [applyTransform_length]
        exact of_not_not hlen
      · exact h2

theorem invApp_handleApplyComplete (a : AppState) (h : InvApp a) :
    InvApp (handleApplyComplete a) := by
  obtain ⟨h1, h2, h3, h4⟩ := h
  unfold handleApplyComplete
  split
  · exact ⟨h1, h2, h3, h4⟩
  · rename_i pa heq
    obtain ⟨hpa1, hpa2⟩ := h4 pa heq
    dsimp only
    refine ⟨?_, ?_, ?_, by simp⟩
    · split
      · rename_i tp htp
        simpa using hpa2 tp htp
      · exact h1
    · intro tp htp
      simp only [Option.mem_def, Option.some_inj] at htp
      subst htp
      simp [hpa1]
    · simpa using (List.length_take_le 2 _)

theorem inv_step (rect : Rect) (vb : ViewBox) (s : SysState) (op : Op)
    (h : SysInv s) : SysInv (step rect vb s op) := by
  cases op with
  | gridClick e => exact inv_handleGridBackgroundClick rect vb s e h
  | dragStart e ty index => exact inv_handleDragStart rect vb s e ty index h
  | dragMove e => exact inv_handleDragMove rect vb s e h
  | dragEnd => exact inv_handleDragEndGrid s h
  | reset => exact ⟨invApp_handleReset s.app h.1, h.2.1, h.2.2⟩
  | applyStart t => exact ⟨invApp_handleApplyStart s.app t h.1, h.2.1, h.2.2⟩
  | applyComplete => exact ⟨invApp_handleApplyComplete s.app h.1, h.2.1, h.2.2⟩

/-- Every reachable state satisfies the size invariant. -/
theorem inv_reachable {rect : Rect} {vb : ViewBox} {s : SysState}
    (h : Reachable rect vb s) : SysInv s := by
  induction h with
  | init =>
    refine ⟨⟨by simp [initState], ?_, by simp [initState], ?_⟩, ?_, ?_⟩ <;>
      simp [initState, InvApp]
  | next h op ih => exact inv_step _ _ _ op ih

/-- One full Apply: the synchronous part followed by its scheduled completion
(the next operation in a sequential run). -/
def applyFull (a : AppState) (t : Transformation) : AppState :=
  handleApplyComplete (handleApplyStart a t)

/-- Targets of the first apply of the history scenario: `P0` translated by
`(1, 0)`. -/
def N1scen : List Point := [⟨2, 1⟩, ⟨4, 1⟩, ⟨4, 3⟩, ⟨2, 3⟩]

/-- Targets of the second apply: `N1scen` reflected across the y-axis. -/
def N2scen : List Point := [⟨-2, 1⟩, ⟨-4, 1⟩, ⟨-4, 3⟩, ⟨-2, 3⟩]

/-- Targets of the third apply: `N2scen` translated by `(0, 2)`. -/
def N3scen : List Point := [⟨-2, 3⟩, ⟨-4, 3⟩, ⟨-4, 5⟩, ⟨-2, 5⟩]

/-- Application state after three sequential Apply completions (translate by
`(1,0)`, reflect across y, translate by `(0,2)`) from the ready state holding
`P0`. -/
def historyScenario : AppState :=
  applyFull (applyFull (applyFull dragScenarioStart.app
    (.translateBy 1 0)) (.reflect .y)) (.translateBy 0 2)

theorem applyStage1 :
    applyFull dragScenarioStart.app (.translateBy 1 0) =
      ⟨P0, some N1scen, [⟨.translateBy 1 0, P0, N1scen⟩], none, false, none, none⟩ := by
  norm_num [applyFull, handleApplyStart, handleApplyComplete, applyTransform,
    geometry.translate, round2Pt, round2, dragScenarioStart, P0, N1scen]

theorem applyStage2 :
    applyFull
        ⟨P0, some N1scen, [⟨.translateBy 1 0, P0, N1scen⟩], none, false, none, none⟩
        (.reflect .y) =
      ⟨N1scen, some N2scen,
        [⟨.reflect .y, N1scen, N2scen⟩, ⟨.translateBy 1 0, P0, N1scen⟩],
        none, false, none, none⟩ := by
  norm_num [applyFull, handleApplyStart, handleApplyComplete, applyTransform,
    geometry.reflect, round2Pt, round2, P0, N1scen, N2scen]

theorem applyStage3 :
    applyFull
        ⟨N1scen, some N2scen,
          [⟨.reflect .y, N1scen, N2scen⟩, ⟨.translateBy 1 0, P0, N1scen⟩],
          none, false, none, none⟩
        (.translateBy 0 2) =
      ⟨N2scen, some N3scen,
        [⟨.translateBy 0 2, N2scen, N3scen⟩, ⟨.reflect .y, N1scen, N2scen⟩],
        none, false, none, none⟩ := by
  norm_num [applyFull, handleApplyStart, handleApplyComplete, applyTransform,
    geometry.translate, round2Pt, round2, P0, N1scen, N2scen, N3scen]

/-- C6: on every reachable state the history holds at most 2 entries, and
after 3 sequential Apply completions the history is exactly the entries of the
third and second applies, newest first. -/
theorem claim6_history_cap :
    (∀ (rect : Rect) (vb : ViewBox) (s : SysState),
        Reachable rect vb s → s.app.history.length ≤ 2) ∧
    historyScenario.history =
      [⟨.translateBy 0 2, N2scen, N3scen⟩, ⟨.reflect .y, N1scen, N2scen⟩] := by
  constructor
  · intro rect vb s h
    exact (inv_reachable h).1.2.2.1
  · show (applyFull (applyFull (applyFull dragScenarioStart.app
      (.translateBy 1 0)) (.reflect .y)) (.translateBy 0 2)).history = _
    rw [applyStage1, applyStage2, applyStage3]

/-- C6 witness: the cap instantiated at the initial state, and the scenario
history length evaluated. -/
theorem claim6_history_cap_witness :
    initState.app.history.length ≤ 2 ∧ historyScenario.history.length = 2 := by
  refine ⟨claim6_history_cap.1 rect0 vb0 initState Reachable.init, ?_⟩
  rw [claim6_history_cap.2]
  rfl

/-- C8: on every reachable state the PointSet holds at most 4 points, and a
background click on a 4-point set (no drag session, no animation, usable
coordinates) replaces the set with exactly the single clicked point, rounded,
and clears the preview and the whole history. -/
theorem claim8_full_set_click_replaces :
    (∀ (rect : Rect) (vb : ViewBox) (s : SysState),
        Reachable rect vb s → s.app.points.length ≤ 4) ∧
    (∀ (rect : Rect) (vb : ViewBox) (s : SysState) (e : PtrEvent) (g : Point),
        s.grid.dragInfo = none → s.app.animation = none →
        getCoordsFromEvent rect vb e = some g →
        s.app.points.length = 4 →
        (step rect vb s (.gridClick e)).app.points =
            [⟨jsRound g.x, jsRound g.y⟩] ∧
          (step rect vb s (.gridClick e)).app.transformedPoints = none ∧
          (step rect vb s (.gridClick e)).app.history = []) := by
  constructor
  · intro rect vb s h
    exact (inv_reachable h).1.1
  · intro rect vb s e g hdrag hanim hc hlen
    have h4 : 4 ≤ s.app.points.length := le_of_eq hlen.symm
    refine ⟨?_, ?_, ?_⟩ <;>
      simp [step, handleGridBackgroundClick, hdrag, hanim, hc,
        handleGridClick, h4]

/-- C8 witness: a click at grid `(0, 0)` on the ready 4-point square starts a
fresh single-point shape, and the initial state respects the bound. -/
theorem claim8_witness :
    ((step rect0 vb0 dragScenarioStart (.gridClick (.mouse 10 10))).app.points =
        [⟨0, 0⟩] ∧
      (step rect0 vb0 dragScenarioStart
          (.gridClick (.mouse 10 10))).app.transformedPoints = none ∧
      (step rect0 vb0 dragScenarioStart
          (.gridClick (.mouse 10 10))).app.history = []) ∧
    initState.app.points.length ≤ 4 := by
  have hc : getCoordsFromEvent rect0 vb0 (.mouse 10 10) = some ⟨0, 0⟩ := by
    norm_num [getCoordsFromEvent, mapClient, rect0, vb0]
  have h := claim8_full_set_click_replaces.2 rect0 vb0 dragScenarioStart
    (.mouse 10 10) ⟨0, 0⟩ rfl rfl hc rfl
  have hr : jsRound (0 : ℚ) = 0 := by norm_num [jsRound]
  refine ⟨⟨?_, h.2.1, h.2.2⟩,
    claim8_full_set_click_replaces.1 rect0 vb0 initState Reachable.init⟩
  rw [h.1, hr]

/-- A sequence of background clicks applied to the initial state. -/
def clickSeq (l : List PtrEvent) : SysState :=
  l.foldl (fun s e => step rect0 vb0 s (.gridClick e)) initState

/-- Four background clicks walking the square clockwise:
grid `(1,1), (1,3), (3,3), (3,1)`. -/
def cwClicks : SysState :=
  clickSeq [.mouse 11 9, .mouse 11 7, .mouse 13 7, .mouse 13 9]

/-- Four background clicks walking the square counter-clockwise:
grid `(1,1), (3,1), (3,3), (1,3)`. -/
def ccwClicks : SysState :=
  clickSeq [.mouse 11 9, .mouse 13 9, .mouse 13 7, .mouse 11 7]

/-- Four collinear background clicks: grid `(0,0), (1,1), (2,2), (3,3)`. -/
def collinearClicks : SysState :=
  clickSeq [.mouse 10 10, .mouse 11 9, .mouse 12 8, .mouse 13 7]

/-- Membership of a point on the closed segment between `a` and `b`. -/
def onSeg (a b q : Point) : Prop :=
  ∃ t : ℚ, 0 ≤ t ∧ t ≤ 1 ∧ q.x = a.x + t * (b.x - a.x) ∧ q.y = a.y + t * (b.y - a.y)

/-- Simplicity of the quadrilateral with vertices `p0 p1 p2 p3` in order: the
two pairs of opposite edges share no point, and each pair of adjacent edges
meets only in the shared vertex. -/
def SimpleQuad (p0 p1 p2 p3 : Point) : Prop :=
  (∀ q, onSeg p0 p1 q → onSeg p2 p3 q → False) ∧
  (∀ q, onSeg p1 p2 q → onSeg p3 p0 q → False) ∧
  (∀ q, onSeg p0 p1 q → onSeg p1 p2 q → q = p1) ∧
  (∀ q, onSeg p1 p2 q → onSeg p2 p3 q → q = p2) ∧
  (∀ q, onSeg p2 p3 q → onSeg p3 p0 q → q = p3) ∧
  (∀ q, onSeg p3 p0 q → onSeg p0 p1 q → q = p0)

/-- The axis-aligned unit-2 square, traversed in sorted order, is simple. -/
theorem squareSimple : SimpleQuad ⟨1, 1⟩ ⟨3, 1⟩ ⟨3, 3⟩ ⟨1, 3⟩ := by
  refine ⟨?_, ?_, ?_, ?_, ?_, ?_⟩
  · rintro ⟨qx, qy⟩ ⟨t, _, _, hx, hy⟩ ⟨u, _, _, hx', hy'⟩
    norm_num at hy hy'
    linarith
  · rintro ⟨qx, qy⟩ ⟨t, _, _, hx, hy⟩ ⟨u, _, _, hx', hy'⟩
    norm_num at hx hx'
    linarith
  · rintro ⟨qx, qy⟩ ⟨t, _, _, hx, hy⟩ ⟨u, _, _, hx', hy'⟩
    norm_num at hy hx'
    rw [hx', hy]
  · rintro ⟨qx, qy⟩ ⟨t, _, _, hx, hy⟩ ⟨u, _, _, hx', hy'⟩
    norm_num at hx hy'
    rw [hx, hy']
  · rintro ⟨qx, qy⟩ ⟨t, _, _, hx, hy⟩ ⟨u, _, _, hx', hy'⟩
    norm_num at hy hx'
    rw [hx', hy]
  · rintro ⟨qx, qy⟩ ⟨t, _, _, hx, hy⟩ ⟨u, _, _, hx', hy'⟩
    norm_num at hx hy'
    rw [hx, hy']

theorem cwClicks_eq :
    cwClicks.app.points = [⟨1, 1⟩, ⟨3, 1⟩, ⟨3, 3⟩, ⟨1, 3⟩] := by
  norm_num [cwClicks, clickSeq, initState, step, handleGridBackgroundClick,
    handleGridClick, getCoordsFromEvent, mapClient, jsRound, rect0, vb0,
    centroid4, sortBy, insertBy, angLePt, angLe, angLt, angZone, cross, vecFrom]

theorem ccwClicks_eq :
    ccwClicks.app.points = [⟨1, 1⟩, ⟨3, 1⟩, ⟨3, 3⟩, ⟨1, 3⟩] := by
  norm_num [ccwClicks, clickSeq, initState, step, handleGridBackgroundClick,
    handleGridClick, getCoordsFromEvent, mapClient, jsRound, rect0, vb0,
    centroid4, sortBy, insertBy, angLePt, angLe, angLt, angZone, cross, vecFrom]

theorem collinearClicks_eq :
    collinearClicks.app.points = [⟨0, 0⟩, ⟨1, 1⟩, ⟨2, 2⟩, ⟨3, 3⟩] := by
  norm_num [collinearClicks, clickSeq, initState, step, handleGridBackgroundClick,
    handleGridClick, getCoordsFromEvent, mapClient, jsRound, rect0, vb0,
    centroid4, sortBy, insertBy, angLePt, angLe, angLt, angZone, cross, vecFrom]

/-- C4 counterexample: the four background clicks at grid
`(0,0), (1,1), (2,2), (3,3)` (all collinear) store the PointSet
`[(0,0),(1,1),(2,2),(3,3)]`, whose polygon self-intersects — the opposite
edges from `(1,1)` to `(2,2)` and from `(3,3)` back to `(0,0)` share the point
`(1,1)` — refuting the claim that every 3-to-4-point click yields a polygon
with no self-intersections. -/
theorem claim4_counterexample :
    collinearClicks.app.points = [⟨0, 0⟩, ⟨1, 1⟩, ⟨2, 2⟩, ⟨3, 3⟩] ∧
    ¬SimpleQuad ⟨0, 0⟩ ⟨1, 1⟩ ⟨2, 2⟩ ⟨3, 3⟩ := by
  refine ⟨collinearClicks_eq, ?_⟩
  intro h
  exact h.2.1 ⟨1, 1⟩
    ⟨0, by norm_num, by norm_num, by norm_num, by norm_num⟩
    ⟨2 / 3, by norm_num, by norm_num, by norm_num, by norm_num⟩

set_option maxHeartbeats 1000000 in
/-- C4 (amended): every background click that brings the PointSet from 3 to 4
points stores a permutation of the four clicked points (the new one rounded to
integer grid units), arranged in ascending atan2 angle about the centroid of
the four; on a clockwise and a counter-clockwise example configuration, the
stored order is the simple square `[(1,1),(3,1),(3,3),(1,3)]` — but degenerate
(e.g. collinear) inputs can still produce a self-intersecting polygon. -/
theorem claim4_fourth_click_sorts (rect : Rect) (vb : ViewBox) (s : SysState)
    (e : PtrEvent) (g : Point)
    (hdrag : s.grid.dragInfo = none) (hanim : s.app.animation = none)
    (hc : getCoordsFromEvent rect vb e = some g)
    (hlen : s.app.points.length = 3) :
    ((step rect vb s (.gridClick e)).app.points).Perm
        (s.app.points ++ [⟨jsRound g.x, jsRound g.y⟩]) ∧
      ((step rect vb s (.gridClick e)).app.points).Pairwise
        (angLePt (centroid4 (s.app.points ++ [⟨jsRound g.x, jsRound g.y⟩]))) ∧
      cwClicks.app.points = [⟨1, 1⟩, ⟨3, 1⟩, ⟨3, 3⟩, ⟨1, 3⟩] ∧
      ccwClicks.app.points = [⟨1, 1⟩, ⟨3, 1⟩, ⟨3, 3⟩, ⟨1, 3⟩] ∧
      SimpleQuad ⟨1, 1⟩ ⟨3, 1⟩ ⟨3, 3⟩ ⟨1, 3⟩ := by
  have hred : (step rect vb s (.gridClick e)).app.points =
      sortBy (angLePt (centroid4 (s.app.points ++ [⟨jsRound g.x, jsRound g.y⟩])))
        (s.app.points ++ [⟨jsRound g.x, jsRound g.y⟩]) := by
    simp [step, handleGridBackgroundClick, hdrag, hanim, hc, handleGridClick, hlen]
  refine ⟨?_, ?_, cwClicks_eq, ccwClicks_eq, squareSimple⟩
  · rw [hred]
    exact sortBy_perm _ _
  · have hp := pairwise_sortBy
      (angLePt (centroid4 (s.app.points ++ [⟨jsRound g.x, jsRound g.y⟩])))
      (fun a b => angLe_total _ _)
      (fun a b c hab hbc => angLe_trans hab hbc)
      (s.app.points ++ [⟨jsRound g.x, jsRound g.y⟩])
    rw [hred]
    exact hp

/-- Ready state holding the three points `(1,1), (1,3), (3,3)`. -/
def threePointState : SysState :=
  ⟨⟨[⟨1, 1⟩, ⟨1, 3⟩, ⟨3, 3⟩], none, [], none, false, none, none⟩,
   ⟨none, none, false⟩⟩

/-- C4 witness: clicking grid `(3, 1)` on a 3-point state yields a permutation
of the four points sorted by centroid angle, and the example square is
simple. -/
theorem claim4_witness :
    ((step rect0 vb0 threePointState (.gridClick (.mouse 13 9))).app.points).Perm
        (threePointState.app.points ++ [⟨jsRound (3 : ℚ), jsRound (1 : ℚ)⟩]) ∧
      SimpleQuad ⟨1, 1⟩ ⟨3, 1⟩ ⟨3, 3⟩ ⟨1, 3⟩ := by
  have hc : getCoordsFromEvent rect0 vb0 (.mouse 13 9) = some ⟨3, 1⟩ := by
    norm_num [getCoordsFromEvent, mapClient, rect0, vb0]
  have h := claim4_fourth_click_sorts rect0 vb0 threePointState (.mouse 13 9)
    ⟨3, 1⟩ rfl rfl hc rfl
  exact ⟨h.1, h.2.2.2.2⟩

/-- C3 (amended): reset always clears the base PointSet, the preview, the
history and the highlight, and leaves the grid component's state — in
particular any pending DragSession and its global listeners — entirely
untouched (it does not terminate the session). -/
theorem claim3_reset_clears (rect : Rect) (vb : ViewBox) (s : SysState) :
    (step rect vb s .reset).app.points = [] ∧
    (step rect vb s .reset).app.transformedPoints = none ∧
    (step rect vb s .reset).app.history = [] ∧
    (step rect vb s .reset).app.highlightedPointIndex = none ∧
    (step rect vb s .reset).grid = s.grid :=
  ⟨rfl, rfl, rfl, rfl, rfl⟩

/-- A mid-gesture state: a confirmed point drag is in progress and the global
listeners are attached. -/
def midDragState : SysState :=
  ⟨⟨[⟨1, 1⟩], some [⟨2, 2⟩], [], none, false, none, none⟩,
   ⟨some ⟨.point, 0, ⟨0, 0⟩, [⟨1, 1⟩], none, true⟩, some [⟨1, 1⟩], true⟩⟩

/-- C3 counterexample: invoking reset mid-gesture does not terminate the
pending DragSession — the session object and the attached global listeners
survive the reset untouched, so the claimed release does not happen. -/
theorem claim3_counterexample :
    midDragState.grid.dragInfo ≠ none ∧
    (step rect0 vb0 midDragState .reset).grid.dragInfo ≠ none ∧
    (step rect0 vb0 midDragState .reset).grid.listenersAttached = true := by
  refine ⟨?_, ?_, rfl⟩ <;> simp [midDragState, step, handleReset]

/-- C2 (amended): starting a drag while an animation is in flight is a
complete no-op; otherwise, whenever the event has usable coordinates, Start
always installs a fresh unconfirmed session whose anchor is the new event's
grid position and whose baseline is the current PointSet — so a second Start
while a session is active replaces that session rather than leaving it in
place (the single `dragInfo` slot holds at most one session at a time). -/
theorem claim2_single_session (rect : Rect) (vb : ViewBox) (s : SysState)
    (e : PtrEvent) (ty : DragType) (index : ℤ) :
    (s.app.animation.isSome → step rect vb s (.dragStart e ty index) = s) ∧
    (∀ g : Point, s.app.animation = none →
      getCoordsFromEvent rect vb e = some g →
      (step rect vb s (.dragStart e ty index)).grid.dragInfo =
        some ⟨ty, index, g, s.app.points, touchOriginOf e, false⟩) := by
  constructor
  · intro h
    simp [step, handleDragStart, h]
  · intro g hanim hc
    simp [step, handleDragStart, hanim, hc]

/-- The DragSession of the first Start of the double-start scenario, anchored
at grid `(0, 0)` over the baseline `[(1, 1)]`. -/
def firstSession : DragInfo := ⟨.point, 0, ⟨0, 0⟩, [⟨1, 1⟩], none, false⟩

/-- State in which `firstSession` is active while the PointSet has moved on to
`[(2, 2)]`, and no animation is in flight. -/
def secondStartState : SysState :=
  ⟨⟨[⟨2, 2⟩], none, [], none, false, none, none⟩,
   ⟨some firstSession, some [⟨1, 1⟩], true⟩⟩

/-- C2 counterexample: a second Start while `firstSession` is active does not
leave that session's values in place — the active session afterwards is a new
one anchored at the second event's position `(5, 0)` with baseline `[(2, 2)]`,
differing from the first session's anchor `(0, 0)` and baseline `[(1, 1)]`. -/
theorem claim2_counterexample :
    ((step rect0 vb0 secondStartState
        (.dragStart (.mouse 15 10) .point 0)).grid.dragInfo.map
          (fun d => d.startPos)) = some ⟨5, 0⟩ ∧
    firstSession.startPos = ⟨0, 0⟩ ∧
    ((step rect0 vb0 secondStartState
        (.dragStart (.mouse 15 10) .point 0)).grid.dragInfo.map
          (fun d => d.initialPoints)) = some [⟨2, 2⟩] ∧
    firstSession.initialPoints = [⟨1, 1⟩] ∧
    (⟨5, 0⟩ : Point) ≠ (⟨0, 0⟩ : Point) ∧
    ([⟨2, 2⟩] : List Point) ≠ [⟨1, 1⟩] := by
  refine ⟨?_, rfl, ?_, rfl, ?_, ?_⟩
  · norm_num [step, handleDragStart, getCoordsFromEvent, mapClient,
      touchOriginOf, rect0, vb0, secondStartState, firstSession]
  · norm_num [step, handleDragStart, getCoordsFromEvent, mapClient,
      touchOriginOf, rect0, vb0, secondStartState, firstSession]
  · intro h
    simp only [Point.mk.injEq] at h
    norm_num at h
  · intro h
    simp only [List.cons.injEq, Point.mk.injEq] at h
    norm_num at h

/-- C2 witness: the no-op branch applied to a state with an animation in
flight, and the replacement branch applied to the double-start scenario. -/
theorem claim2_witness :
    step rect0 vb0 sA (.dragStart (.mouse 10 10) .point 0) = sA ∧
    (step rect0 vb0 secondStartState
        (.dragStart (.mouse 15 10) .point 0)).grid.dragInfo =
      some ⟨.point, 0, ⟨5, 0⟩, [⟨2, 2⟩], none, false⟩ := by
  have hc : getCoordsFromEvent rect0 vb0 (.mouse 15 10) = some ⟨5, 0⟩ := by
    norm_num [getCoordsFromEvent, mapClient, rect0, vb0]
  refine ⟨(claim2_single_session rect0 vb0 sA (.mouse 10 10) .point 0).1 rfl, ?_⟩
  exact (claim2_single_session rect0 vb0 secondStartState (.mouse 15 10)
    .point 0).2 ⟨5, 0⟩ rfl hc

/-- C7: the coordinate mapper sends a mouse event at client `(cx, cy)` (and a
touch event via its first active touch) to the grid point whose x-coordinate
is `vb.x + ratioX · vb.width` and whose y-coordinate is
`vb.y + (1 − ratioY) · vb.height`, where the ratios normalise the client
position against the bounding box; a touch event with zero active touches
yields null. -/
theorem claim7_coord_mapper (rect : Rect) (vb : ViewBox) :
    (∀ cx cy : ℚ,
      getCoordsFromEvent rect vb (.mouse cx cy) =
        some ⟨vb.x + (cx - rect.left) / rect.width * vb.width,
              vb.y + (1 - (cy - rect.top) / rect.height) * vb.height⟩) ∧
    (∀ (t : ClientPos) (ts : List ClientPos),
      getCoordsFromEvent rect vb (.touch (t :: ts)) =
        some ⟨vb.x + (t.clientX - rect.left) / rect.width * vb.width,
              vb.y + (1 - (t.clientY - rect.top) / rect.height) * vb.height⟩) ∧
    getCoordsFromEvent rect vb (.touch []) = none :=
  ⟨fun _ _ => rfl, fun _ _ => rfl, rfl⟩

/-- C5: classification of a touch move on an unconfirmed touch-started
session.  While both per-axis displacements from the touch origin stay within
the 5-pixel threshold the whole step is a no-op (the session stays pending and
nothing is emitted); once the threshold is exceeded, a dominant vertical
displacement aborts the gesture — session discarded, listeners released, and
the application state untouched, so no commit is emitted — while otherwise the
session is confirmed as a drag. -/
theorem claim5_touch_classification (rect : Rect) (vb : ViewBox) (s : SysState)
    (d : DragInfo) (o t : ClientPos) (ts : List ClientPos)
    (hd : s.grid.dragInfo = some d)
    (hconf : d.isDragging = false)
    (ho : d.touchStartPos = some o) :
    (|t.clientX - o.clientX| ≤ 5 ∧ |t.clientY - o.clientY| ≤ 5 →
      step rect vb s (.dragMove (.touch (t :: ts))) = s) ∧
    ((5 < |t.clientX - o.clientX| ∨ 5 < |t.clientY - o.clientY|) →
      |t.clientX - o.clientX| < |t.clientY - o.clientY| →
      step rect vb s (.dragMove (.touch (t :: ts))) = ⟨s.app, ⟨none, none, false⟩⟩) ∧
    ((5 < |t.clientX - o.clientX| ∨ 5 < |t.clientY - o.clientY|) →
      ¬|t.clientX - o.clientX| < |t.clientY - o.clientY| →
      (step rect vb s (.dragMove (.touch (t :: ts)))).grid.dragInfo =
        some { d with isDragging := true }) := by
  refine ⟨?_, ?_, ?_⟩
  · rintro ⟨h1, h2⟩
    simp only [step, handleDragMove, hd, hconf, ho]
    rw [if_neg]
    push_neg
    exact ⟨h1, h2⟩
  · intro hgt hvert
    simp only [step, handleDragMove, hd, hconf, ho]
    rw [if_pos hgt, if_pos hvert]
    unfold handleDragEndGrid
    cases hl : s.grid.latestDraggedPoints <;> simp [hd, hconf, hl]
  · intro hgt hvert
    simp only [step, handleDragMove, hd, hconf, ho]
    rw [if_pos hgt, if_neg hvert]
    unfold emitMove
    simp [getCoordsFromEvent]

/-- An unconfirmed touch-started shape session with touch origin `(10, 10)`. -/
def touchSession : DragInfo := ⟨.shape, -1, ⟨0, 0⟩, [⟨1, 1⟩], some ⟨10, 10⟩, false⟩

/-- State in which `touchSession` is pending classification. -/
def touchMidState : SysState :=
  ⟨⟨[⟨1, 1⟩], none, [], none, false, none, none⟩,
   ⟨some touchSession, some [⟨1, 1⟩], true⟩⟩

/-- C5 witness: a touch move 2 pixels to the right of the origin stays within
the threshold, so the step is a no-op; one 7 pixels down aborts the session
with the application state untouched; one 7 pixels right confirms the drag. -/
theorem claim5_witness :
    step rect0 vb0 touchMidState (.dragMove (.touch [⟨12, 10⟩])) =
        touchMidState ∧
    step rect0 vb0 touchMidState (.dragMove (.touch [⟨10, 17⟩])) =
        ⟨touchMidState.app, ⟨none, none, false⟩⟩ ∧
    (step rect0 vb0 touchMidState
        (.dragMove (.touch [⟨17, 10⟩]))).grid.dragInfo =
      some { touchSession with isDragging := true } := by
  have h12 := claim5_touch_classification rect0 vb0 touchMidState touchSession
    ⟨10, 10⟩ ⟨12, 10⟩ [] rfl rfl rfl
  have h17 := claim5_touch_classification rect0 vb0 touchMidState touchSession
    ⟨10, 10⟩ ⟨10, 17⟩ [] rfl rfl rfl
  have h71 := claim5_touch_classification rect0 vb0 touchMidState touchSession
    ⟨10, 10⟩ ⟨17, 10⟩ [] rfl rfl rfl
  refine ⟨h12.1 ⟨?_, ?_⟩, h17.2.1 ?_ ?_, h71.2.2 ?_ ?_⟩ <;>
    norm_num [abs_of_nonneg, abs_of_nonpos]

/-- The points stored by the live-update callback are exactly the moved
points. -/
theorem handlePointsDrag_points (a : AppState) (newPoints : List Point) :
    (handlePointsDrag a newPoints).points = newPoints := by
  unfold handlePointsDrag
  split <;> rfl

/-- Indexed lookup through `List.mapIdx`. -/
theorem getElem?_mapIdx (f : ℕ → α → β) (l : List α) (j : ℕ) :
    (l.mapIdx f)[j]? = (l[j]?).map (f j) := by
  rw [List.mapIdx_eq_enum_map, List.getElem?_map, List.getElem?_enum]
  cases l[j]? <;> simp [Function.uncurry]

/-- C10: a confirmed Point-kind drag move leaves every baseline point other
than the dragged index exactly unchanged — no translation and no rounding,
even for non-integer coordinates — while the dragged index is moved by the
anchor delta and rounded. -/
theorem claim10_point_drag_untouched (rect : Rect) (vb : ViewBox)
    (s : SysState) (d : DragInfo) (e : PtrEvent) (pos : Point)
    (hd : s.grid.dragInfo = some d)
    (hty : d.type = .point)
    (hconf : d.isDragging = true)
    (hc : getCoordsFromEvent rect vb e = some pos) :
    (∀ j : ℕ, (j : ℤ) ≠ d.index →
      ((step rect vb s (.dragMove e)).app.points)[j]? = d.initialPoints[j]?) ∧
    (∀ j : ℕ, (j : ℤ) = d.index →
      ((step rect vb s (.dragMove e)).app.points)[j]? =
        (d.initialPoints[j]?).map (fun p =>
          ⟨jsRound (p.x + (pos.x - d.startPos.x)),
           jsRound (p.y + (pos.y - d.startPos.y))⟩)) := by
  have hred : (step rect vb s (.dragMove e)).app.points =
      movePoints d (pos.x - d.startPos.x) (pos.y - d.startPos.y) := by
    cases e with
    | mouse cx cy =>
      simp only [step, handleDragMove, hd, hconf]
      unfold emitMove
      rw [hc]
      exact handlePointsDrag_points _ _
    | touch touches =>
      cases touches with
      | nil => simp [getCoordsFromEvent] at hc
      | cons t ts =>
        simp only [step, handleDragMove, hd, hconf]
        unfold emitMove
        rw [hc]
        exact handlePointsDrag_points _ _
  rw [hred]
  unfold movePoints
  rw [hty]
  constructor
  · intro j hj
    rw [getElem?_mapIdx]
    cases d.initialPoints[j]? <;> simp [hj]
  · intro j hj
    rw [getElem?_mapIdx]
    cases d.initialPoints[j]? <;> simp [hj]

/-- A confirmed Point-kind session dragging index 1 over a baseline whose
untouched point 0 has non-integer coordinates. -/
def pointSession : DragInfo := ⟨.point, 1, ⟨0, 0⟩, [⟨1/2, 1/2⟩, ⟨3, 1⟩], none, true⟩

/-- State in which `pointSession` is live. -/
def pointDragState : SysState :=
  ⟨⟨[⟨1/2, 1/2⟩, ⟨3, 1⟩], none, [], none, false, none, none⟩,
   ⟨some pointSession, some [⟨1/2, 1/2⟩, ⟨3, 1⟩], true⟩⟩

/-- C10 witness: after a confirmed move of `(2, 0)` dragging index 1, the
untouched point 0 keeps its exact non-integer coordinates `(1/2, 1/2)`, while
index 1 is moved and rounded to `(5, 1)`. -/
theorem claim10_witness :
    (step rect0 vb0 pointDragState
        (.dragMove (.mouse 12 10))).app.points[0]? = some ⟨1/2, 1/2⟩ ∧
    (step rect0 vb0 pointDragState
        (.dragMove (.mouse 12 10))).app.points[1]? = some ⟨5, 1⟩ := by
  have hc : getCoordsFromEvent rect0 vb0 (.mouse 12 10) = some ⟨2, 0⟩ := by
    norm_num [getCoordsFromEvent, mapClient, rect0, vb0]
  have h := claim10_point_drag_untouched rect0 vb0 pointDragState pointSession
    (.mouse 12 10) ⟨2, 0⟩ rfl rfl rfl hc
  constructor
  · rw [h.1 0 (by norm_num [pointSession])]
    rfl
  · rw [h.2 1 (by norm_num [pointSession])]
    norm_num [pointSession, jsRound]
